import Mathlib

/-!
# Verification of the amazon-seller-dashboard ingestion pipeline

Shallow embedding of the data-ingestion core of the repository:
the token-bucket rate limiters (`src/lib/spApiClient.js` and the inline
limiter of `src/pages/api/cron/ingest-ads.js`), the sales normalization of
`SPAPIClient.getSalesData` (production variant of `src/lib/spApiClient.js`),
the persistence gateway (`src/lib/supabaseService.js`), and the two
cron ingestion handlers (`src/pages/api/cron/ingest-sales.js`,
`src/pages/api/cron/ingest-ads.js`).

JavaScript numbers are modelled as `ℚ`; millisecond timestamps as `ℤ`;
possibly-`undefined` values as `Option`; thrown errors as `Except`.
`x || 0` on a possibly-undefined number is `Option.getD · 0` (for a number
that is always present it is the identity except at `0`, where it is
again `0`, so plain `ℚ` fields keep it as the identity).
-/

namespace AmazonDashboard

/-- JS truthiness of a possibly-undefined string: `undefined` and `""` are
falsy, every other string is truthy. -/
def truthy : Option String → Bool
  | none => false
  | some s => s ≠ ""

/-- `x || 0` for a possibly-undefined JS number. -/
def numOr0 (x : Option ℚ) : ℚ := x.getD 0

/-- `parseFloat(q.toFixed(d))`: round to `d` decimal places (decimal
rounding abstracted as round-to-nearest). -/
def jsToFixed (d : ℕ) (q : ℚ) : ℚ := (round (q * 10 ^ d) : ℚ) / 10 ^ d

/-! ## Token-bucket rate limiter — `src/lib/spApiClient.js` lines 10-56

`RateLimiter` with integer-floored refill: `_refillTokens` adds
`Math.floor(timePassed / 1000 * requestsPerSecond)` tokens and updates
`lastRefill` only when that amount is positive. -/

structure SPRateLimiter where
  requestsPerSecond : ℚ
  maxBurst : ℚ
  tokens : ℚ
  lastRefill : ℤ
  deriving DecidableEq, Repr

namespace SPRateLimiter

/-- `new RateLimiter(requestsPerSecond, maxBurst)` at clock time `now`. -/
def init (rps burst : ℚ) (now : ℤ) : SPRateLimiter :=
  { requestsPerSecond := rps, maxBurst := burst, tokens := burst, lastRefill := now }

/-- `RateLimiter._refillTokens` (spApiClient.js lines 36-45). -/
def refillTokens (s : SPRateLimiter) (now : ℤ) : SPRateLimiter :=
  let timePassed : ℤ := now - s.lastRefill
  let tokensToAdd : ℤ := ⌊(timePassed : ℚ) / 1000 * s.requestsPerSecond⌋
  if 0 < tokensToAdd then
    { s with tokens := min s.maxBurst (s.tokens + tokensToAdd), lastRefill := now }
  else s

/-- `RateLimiter.waitForToken` (spApiClient.js lines 18-34), called at clock
time `now`.  Returns the post-call state and `none` when the call returned
immediately, or `some w` when it suspended for `w` milliseconds before
decrementing with a floor at zero.  (Sequential model: no other mutation
happens between the `setTimeout` registration and its callback.) -/
def waitForToken (s : SPRateLimiter) (now : ℤ) : SPRateLimiter × Option ℤ :=
  let s1 := refillTokens s now
  if 1 ≤ s1.tokens then
    ({ s1 with tokens := s1.tokens - 1 }, none)
  else
    let waitTime : ℤ := ⌈(1000 : ℚ) / s.requestsPerSecond⌉
    ({ s1 with tokens := max 0 (s1.tokens - 1) }, some waitTime)

/-- Run a sequence of `waitForToken` calls at the given clock times,
collecting each call's wait outcome. -/
def runCalls (s : SPRateLimiter) (times : List ℤ) : SPRateLimiter × List (Option ℤ) :=
  times.foldl (fun (acc : SPRateLimiter × List (Option ℤ)) t =>
    let r := waitForToken acc.1 t
    (r.1, acc.2 ++ [r.2])) (s, [])

end SPRateLimiter

/-! ## Token-bucket rate limiter — `src/pages/api/cron/ingest-ads.js` lines 13-36

The ads cron endpoint's inline `RateLimiter` with exact fractional refill
and an unconditional `lastRefill` update. -/

structure AdsRateLimiter where
  requestsPerSecond : ℚ
  maxBurstSize : ℚ
  tokens : ℚ
  lastRefill : ℤ
  deriving DecidableEq, Repr

namespace AdsRateLimiter

def init (rps burst : ℚ) (now : ℤ) : AdsRateLimiter :=
  { requestsPerSecond := rps, maxBurstSize := burst, tokens := burst, lastRefill := now }

/-- `RateLimiter.waitForToken` (ingest-ads.js lines 21-35). -/
def waitForToken (s : AdsRateLimiter) (now : ℤ) : AdsRateLimiter × Option ℚ :=
  let elapsed : ℚ := ((now - s.lastRefill : ℤ) : ℚ) / 1000
  let tokens1 : ℚ := min s.maxBurstSize (s.tokens + elapsed * s.requestsPerSecond)
  let s1 : AdsRateLimiter := { s with tokens := tokens1, lastRefill := now }
  if 1 ≤ s1.tokens then
    ({ s1 with tokens := s1.tokens - 1 }, none)
  else
    let waitTime : ℚ := (1 - s1.tokens) / s.requestsPerSecond * 1000
    ({ s1 with tokens := 0 }, some waitTime)

end AdsRateLimiter

/-- Modelled from the spec's words (§4.1, claim C2): on every call the
limiter "adds elapsed-time × refillRatePerSecond tokens capped at capacity
and updates the last-refill timestamp; if at least one token is then
available it decrements and returns immediately, otherwise it waits
ceil(1 / refillRatePerSecond * 1000) milliseconds, then decrements
unconditionally with a floor at zero and returns". Used only to compare
the spec's described algorithm against the source's `SPRateLimiter`. -/
structure SpecLimiter where
  rate : ℚ
  capacity : ℚ
  tokens : ℚ
  lastRefill : ℤ
  deriving DecidableEq, Repr

namespace SpecLimiter

def init (rate cap : ℚ) (now : ℤ) : SpecLimiter :=
  { rate := rate, capacity := cap, tokens := cap, lastRefill := now }

/-- The spec-worded acquire: exact fractional refill with unconditional
timestamp update, then consume-or-wait. -/
def acquire (s : SpecLimiter) (now : ℤ) : SpecLimiter × Option ℤ :=
  let refilled : ℚ :=
    min s.capacity (s.tokens + ((now - s.lastRefill : ℤ) : ℚ) / 1000 * s.rate)
  let s1 : SpecLimiter := { s with tokens := refilled, lastRefill := now }
  if 1 ≤ s1.tokens then
    ({ s1 with tokens := s1.tokens - 1 }, none)
  else
    ({ s1 with tokens := max 0 (s1.tokens - 1) }, some ⌈1 / s.rate * 1000⌉)

def runCalls (s : SpecLimiter) (times : List ℤ) : SpecLimiter × List (Option ℤ) :=
  times.foldl (fun (acc : SpecLimiter × List (Option ℤ)) t =>
    let r := acquire acc.1 t
    (r.1, acc.2 ++ [r.2])) (s, [])

end SpecLimiter

/-! ## Sales normalization — `SPAPIClient.getSalesData`
(`src/lib/spApiClient.js`, production variant, lines 215-303)

The upstream payload is an array of line items; the code groups them by
calendar date (insertion order preserved, as a JS `Map`), sums the volume
fields per date, maps each group to a normalized metric record, and drops
records whose three volume fields are all non-positive. -/

/-- One raw line item of the upstream `payload` array.  Numeric fields are
read as `item.f || 0`, so a missing field is `none`. -/
structure PayloadItem where
  interval : Option String
  unitCount : Option ℚ
  orderItemCount : Option ℚ
  orderCount : Option ℚ
  /-- `item.totalSales?.amount` -/
  totalSalesAmount : Option ℚ
  deriving DecidableEq, Repr

/-- JS `s.split('T')[0]`: the prefix of `s` before the first `'T'`
(the whole string when no `'T'` occurs). -/
def splitFirstT (s : String) : String := String.mk (s.data.takeWhile (· ≠ 'T'))

/-- `item.interval ? item.interval.split('T')[0] : startDate`. -/
def dateOf (item : PayloadItem) (startDate : String) : String :=
  match item.interval with
  | none => startDate
  | some s => if s = "" then startDate else splitFirstT s

/-- The per-date accumulator stored in the `dateMetrics` map. -/
structure DayMetric where
  date : String
  unitCount : ℚ
  orderItemCount : ℚ
  orderCount : ℚ
  totalSales : ℚ
  deriving DecidableEq, Repr

/-- Add one line item's fields into the accumulator list: if an entry with
this date exists, add in place; otherwise append a zero-initialized entry
with the item's fields added (JS `Map` insertion order). -/
def addItem (acc : List DayMetric) (d : String) (item : PayloadItem) : List DayMetric :=
  match acc with
  | [] => [{ date := d, unitCount := numOr0 item.unitCount,
             orderItemCount := numOr0 item.orderItemCount,
             orderCount := numOr0 item.orderCount,
             totalSales := numOr0 item.totalSalesAmount }]
  | m :: rest =>
    if m.date = d then
      { m with unitCount := m.unitCount + numOr0 item.unitCount,
               orderItemCount := m.orderItemCount + numOr0 item.orderItemCount,
               orderCount := m.orderCount + numOr0 item.orderCount,
               totalSales := m.totalSales + numOr0 item.totalSalesAmount } :: rest
    else m :: addItem rest d item

/-- The `data.payload.forEach` grouping loop (spApiClient.js lines 249-269). -/
def groupByDate (payload : List PayloadItem) (startDate : String) : List DayMetric :=
  payload.foldl (fun acc item => addItem acc (dateOf item startDate) item) []

/-- A normalized daily metric record as produced by `getSalesData`. -/
structure Metric where
  date : String
  units_ordered : ℚ
  units_shipped : ℚ
  ordered_product_sales : ℚ
  shipped_product_sales : ℚ
  total_order_items : ℚ
  deriving DecidableEq, Repr

/-- The mapping of a grouped accumulator entry to a normalized record
(spApiClient.js lines 271-278): shipped fields mirror the ordered ones,
`orderCount` is dropped. -/
def toMetric (m : DayMetric) : Metric :=
  { date := m.date, units_ordered := m.unitCount, units_shipped := m.unitCount,
    ordered_product_sales := m.totalSales, shipped_product_sales := m.totalSales,
    total_order_items := m.orderItemCount }

/-- The grouped-and-mapped (pre-filter) record list. -/
def rawMetrics (payload : List PayloadItem) (startDate : String) : List Metric :=
  (groupByDate payload startDate).map toMetric

/-- The zero-record filter predicate (spApiClient.js lines 281-285):
a record is kept iff some volume field is strictly positive. -/
def keepMetric (m : Metric) : Bool :=
  0 < m.units_ordered || 0 < m.total_order_items || 0 < m.ordered_product_sales

/-- The full normalization performed by `getSalesData` on a well-formed
payload: group by date, sum, map, drop all-non-positive records. -/
def getSalesDataMetrics (payload : List PayloadItem) (startDate : String) : List Metric :=
  (rawMetrics payload startDate).filter keepMetric

/-- Sum of `item.unitCount || 0` over the line items of date `d`. -/
def sumUnits (payload : List PayloadItem) (startDate d : String) : ℚ :=
  ((payload.filter (fun i => dateOf i startDate = d)).map (fun i => numOr0 i.unitCount)).sum

/-- Sum of `item.orderItemCount || 0` over the line items of date `d`. -/
def sumItems (payload : List PayloadItem) (startDate d : String) : ℚ :=
  ((payload.filter (fun i => dateOf i startDate = d)).map (fun i => numOr0 i.orderItemCount)).sum

/-- Sum of `item.orderCount || 0` over the line items of date `d`. -/
def sumOrders (payload : List PayloadItem) (startDate d : String) : ℚ :=
  ((payload.filter (fun i => dateOf i startDate = d)).map (fun i => numOr0 i.orderCount)).sum

/-- Sum of `item.totalSales?.amount || 0` over the line items of date `d`. -/
def sumSales (payload : List PayloadItem) (startDate d : String) : ℚ :=
  ((payload.filter (fun i => dateOf i startDate = d)).map (fun i => numOr0 i.totalSalesAmount)).sum

/-! ## Persistence gateway — `src/lib/supabaseService.js` (production variant)

The store behind the gateway is modelled as a partial map from each
table's conflict-key columns to its row (the relational semantics of
`upsert(..., { onConflict })`). -/

/-- A relational table keyed by its conflict columns. -/
def Table (K V : Type) := K → Option V

/-- The empty table. -/
def Table.empty {K V : Type} : Table K V := fun _ => none

/-- Insert-or-replace one row at its conflict key. -/
def Table.upsert {K V : Type} [DecidableEq K] (t : Table K V) (k : K) (v : V) : Table K V :=
  fun k' => if k' = k then some v else t k'

/-- Upsert a batch of keyed rows, in order. -/
def Table.upsertAll {K V : Type} [DecidableEq K] (t : Table K V) (rows : List (K × V)) :
    Table K V :=
  rows.foldl (fun t kv => Table.upsert t kv.1 kv.2) t

/-- JS `x || d` for a possibly-undefined string (`undefined` and `""` fall
back to `d`). -/
def jsOr (x : Option String) (d : String) : String :=
  match x with
  | none => d
  | some s => if s = "" then d else s

/-- The in-place merge step of `upsertSalesData`'s duplicate removal
(supabaseService.js lines 38-52): a record whose date is already present
has its `units_ordered`, `total_order_items` and `ordered_product_sales`
added onto the existing entry (the other fields of the existing entry are
kept); a new date is appended.  On plain (always-present) numeric fields
the source's `(x || 0)` guards are the identity. -/
def mergeSalesInto (acc : List Metric) (r : Metric) : List Metric :=
  match acc with
  | [] => [r]
  | m :: rest =>
    if m.date = r.date then
      { m with units_ordered := m.units_ordered + r.units_ordered,
               total_order_items := m.total_order_items + r.total_order_items,
               ordered_product_sales := m.ordered_product_sales + r.ordered_product_sales }
        :: rest
    else m :: mergeSalesInto rest r

/-- `upsertSalesData`'s dedupe-by-date pass over the input batch. -/
def dedupeSales (batch : List Metric) : List Metric :=
  batch.foldl mergeSalesInto []

/-- A row of the `sales_metrics` table. -/
structure SalesRow where
  date : String
  marketplace_id : String
  unit_count : ℚ
  order_item_count : ℚ
  order_count : ℚ
  average_unit_price : ℚ
  total_sales : ℚ
  granularity : String
  source : String
  created_at : String
  updated_at : String
  deriving DecidableEq, Repr

/-- The per-record transform of `upsertSalesData` (supabaseService.js
lines 57-70).  `average_unit_price` is guarded by JS truthiness of both
`ordered_product_sales` and `units_ordered` (a zero in either yields `0`
and no division is performed). -/
def toSalesRow (source now : String) (r : Metric) : SalesRow :=
  { date := r.date, marketplace_id := "ATVPDKIKX0DER",
    unit_count := r.units_ordered,
    order_item_count := r.total_order_items,
    order_count := r.units_ordered,
    average_unit_price :=
      if r.ordered_product_sales ≠ 0 ∧ r.units_ordered ≠ 0 then
        jsToFixed 4 (r.ordered_product_sales / r.units_ordered)
      else 0,
    total_sales := r.ordered_product_sales,
    granularity := "Day", source := source, created_at := now, updated_at := now }

/-- Conflict key of `sales_metrics`: `date,marketplace_id,granularity`. -/
def salesKey (row : SalesRow) : String × String × String :=
  (row.date, row.marketplace_id, row.granularity)

/-- The full row batch handed to the store by `upsertSalesData`. -/
def salesRowsOf (batch : List Metric) (source now : String) : List SalesRow :=
  (dedupeSales batch).map (toSalesRow source now)

/-- `SupabaseService.upsertSalesData` (lines 31-99): dedupe, transform,
conflict-key upsert; returns the updated table and the affected row
count.  An empty batch is a no-op with count `0`. -/
def upsertSalesData (batch : List Metric) (source now : String)
    (t : Table (String × String × String) SalesRow) :
    Table (String × String × String) SalesRow × ℕ :=
  if batch.isEmpty then (t, 0)
  else
    let rows := salesRowsOf batch source now
    (Table.upsertAll t (rows.map fun r => (salesKey r, r)), rows.length)

/-- An input order record (`getOrdersData` output shape). -/
structure OrderInput where
  amazon_order_id : String
  order_date : Option String
  order_status : Option String
  fulfillment_channel : Option String
  sales_channel : Option String
  order_total : Option ℚ
  currency : Option String
  number_of_items_shipped : Option ℚ
  number_of_items_unshipped : Option ℚ
  payment_method : Option String
  marketplace_id : Option String
  buyer_email : Option String
  buyer_name : Option String
  shipment_service_level_category : Option String
  deriving DecidableEq, Repr

/-- A row of the `orders` table. -/
structure OrderRow where
  amazon_order_id : String
  order_date : Option String
  order_status : Option String
  fulfillment_channel : Option String
  sales_channel : Option String
  order_total : ℚ
  currency : String
  number_of_items_shipped : ℚ
  number_of_items_unshipped : ℚ
  payment_method : Option String
  marketplace_id : Option String
  buyer_email : Option String
  buyer_name : Option String
  shipment_service_level_category : Option String
  source : String
  updated_at : String
  deriving DecidableEq, Repr

/-- The per-order transform of `upsertOrdersData` (lines 111-128). -/
def toOrderRow (source now : String) (o : OrderInput) : OrderRow :=
  { amazon_order_id := o.amazon_order_id, order_date := o.order_date,
    order_status := o.order_status, fulfillment_channel := o.fulfillment_channel,
    sales_channel := o.sales_channel, order_total := numOr0 o.order_total,
    currency := jsOr o.currency "USD",
    number_of_items_shipped := numOr0 o.number_of_items_shipped,
    number_of_items_unshipped := numOr0 o.number_of_items_unshipped,
    payment_method := o.payment_method, marketplace_id := o.marketplace_id,
    buyer_email := o.buyer_email, buyer_name := o.buyer_name,
    shipment_service_level_category := o.shipment_service_level_category,
    source := source, updated_at := now }

/-- `SupabaseService.upsertOrdersData` (lines 104-149): transform and
upsert on conflict key `amazon_order_id`; no in-batch dedupe pass. -/
def upsertOrdersData (batch : List OrderInput) (source now : String)
    (t : Table String OrderRow) : Table String OrderRow × ℕ :=
  if batch.isEmpty then (t, 0)
  else
    let rows := batch.map (toOrderRow source now)
    (Table.upsertAll t (rows.map fun r => (r.amazon_order_id, r)), rows.length)

/-- An advertising campaign record as handed to the gateway.  Fields that
a given producer does not set are `none`; `updated_at` is the parsed
timestamp used by the dedupe comparison (`new Date(x) > new Date(y)` is
false whenever either side is missing, i.e. `NaN`). -/
structure AdsCampaign where
  campaign_id : String
  campaign_name : Option String
  campaign_type : Option String
  status : Option String
  daily_budget : Option ℚ
  target_acos : Option ℚ
  impressions : Option ℚ
  clicks : Option ℚ
  cost : Option ℚ
  spend : Option ℚ
  sales : Option ℚ
  sales_7d : Option ℚ
  orders : Option ℚ
  start_date : Option String
  end_date : Option String
  sku : Option String
  created_at : Option String
  user_id : Option String
  updated_at : Option ℤ
  deriving DecidableEq, Repr

/-- `new Date(a.updated_at) > new Date(b.updated_at)`: strictly later, and
only when both timestamps parse. -/
def newerThan (a b : AdsCampaign) : Bool :=
  match a.updated_at, b.updated_at with
  | some x, some y => y < x
  | _, _ => false

/-- The in-place dedupe step of `upsertAdsData` (lines 162-176): a
duplicate `campaign_id` keeps the existing record unless the new one has
a strictly later `updated_at`. -/
def mergeAdsInto (acc : List AdsCampaign) (r : AdsCampaign) : List AdsCampaign :=
  match acc with
  | [] => [r]
  | c :: rest =>
    if c.campaign_id = r.campaign_id then (if newerThan r c then r else c) :: rest
    else c :: mergeAdsInto rest r

/-- `upsertAdsData`'s dedupe-by-campaign-id pass. -/
def dedupeAds (batch : List AdsCampaign) : List AdsCampaign :=
  batch.foldl mergeAdsInto []

/-- JS `parseInt` applied to an always-numeric value: truncation toward
zero (string round-trip of exotic values not modelled). -/
def jsParseInt (q : ℚ) : ℚ := if 0 ≤ q then (⌊q⌋ : ℚ) else (⌈q⌉ : ℚ)

/-- A row of the `ads_campaigns` table. -/
structure AdsRow where
  user_id : Option String
  campaign_id : String
  campaign_name : Option String
  campaign_type : Option String
  status : String
  daily_budget : ℚ
  target_acos : Option ℚ
  impressions : ℚ
  clicks : ℚ
  spend : ℚ
  sales : ℚ
  orders : ℚ
  start_date : Option String
  end_date : Option String
  sku : Option String
  created_at : String
  updated_at : String
  deriving DecidableEq, Repr

/-- The per-record transform of `upsertAdsData` (lines 181-199). -/
def toAdsRow (defaultUserId : Option String) (now : String) (r : AdsCampaign) : AdsRow :=
  { user_id := match r.user_id with
      | some u => if u = "" then defaultUserId else some u
      | none => defaultUserId,
    campaign_id := r.campaign_id, campaign_name := r.campaign_name,
    campaign_type := r.campaign_type, status := jsOr r.status "ENABLED",
    daily_budget := numOr0 r.daily_budget, target_acos := r.target_acos,
    impressions := jsParseInt (numOr0 r.impressions),
    clicks := jsParseInt (numOr0 r.clicks),
    spend := numOr0 r.spend, sales := numOr0 r.sales,
    orders := jsParseInt (numOr0 r.orders),
    start_date := r.start_date, end_date := r.end_date, sku := r.sku,
    created_at := jsOr r.created_at now, updated_at := now }

/-- `SupabaseService.upsertAdsData` (lines 155-228): dedupe by
`campaign_id`, transform, upsert on conflict key `campaign_id,user_id`. -/
def upsertAdsData (batch : List AdsCampaign) (defaultUserId : Option String) (now : String)
    (t : Table (String × Option String) AdsRow) :
    Table (String × Option String) AdsRow × ℕ :=
  if batch.isEmpty then (t, 0)
  else
    let rows := (dedupeAds batch).map (toAdsRow defaultUserId now)
    (Table.upsertAll t (rows.map fun r => ((r.campaign_id, r.user_id), r)), rows.length)

/-! ## Token management — `SPAPIClient.getLWAAccessToken`
(`src/lib/spApiClient.js`, production variant, lines 81-121) and the ads
cron's `AmazonAdsClient.getAccessToken`
(`src/pages/api/cron/ingest-ads.js`, lines 52-90).

The upstream token-exchange endpoint is an oracle
(`Except String TokenExchangeResult`). -/

/-- A successful token-exchange response body. -/
structure TokenExchangeResult where
  access_token : String
  /-- `expires_in`, seconds. -/
  expires_in : ℚ
  deriving DecidableEq, Repr

/-- A cached token with its precomputed expiry instant (ms). -/
structure CachedToken where
  token : String
  expires : ℚ
  deriving DecidableEq, Repr

/-- Outcome of a token-management call: the returned-or-thrown value, the
cache afterwards, and whether the upstream exchange endpoint was hit. -/
structure TokenOutcome where
  result : Except String String
  cache : Option CachedToken
  exchanged : Bool
  deriving Repr

/-- `SPAPIClient.getLWAAccessToken` (production variant): missing
`clientId`/`clientSecret` throws before any cache lookup or network call;
a valid cached token is reused; otherwise the refresh-token exchange runs
and its result is cached with a 60 s safety margin. -/
def getLWAAccessToken (clientId clientSecret : Option String)
    (cache : Option CachedToken) (now : ℤ)
    (exchange : Except String TokenExchangeResult) : TokenOutcome :=
  if ¬ (truthy clientId ∧ truthy clientSecret) then
    { result := .error
        "SP-API: Missing LWA credentials (CLIENT_ID, CLIENT_SECRET, or REFRESH_TOKEN)",
      cache := cache, exchanged := false }
  else
    match cache with
    | some c =>
      if (now : ℚ) < c.expires then
        { result := .ok c.token, cache := cache, exchanged := false }
      else
        match exchange with
        | .ok d =>
          { result := .ok d.access_token,
            cache := some ⟨d.access_token, (now : ℚ) + d.expires_in * 1000 - 60000⟩,
            exchanged := true }
        | .error e => { result := .error e, cache := cache, exchanged := true }
    | none =>
      match exchange with
      | .ok d =>
        { result := .ok d.access_token,
          cache := some ⟨d.access_token, (now : ℚ) + d.expires_in * 1000 - 60000⟩,
          exchanged := true }
      | .error e => { result := .error e, cache := cache, exchanged := true }

/-- The ads cron's `AmazonAdsClient.getAccessToken` (ingest-ads.js lines
52-90): a valid cached token is reused; otherwise, when any of
`clientId`/`clientSecret`/`refreshToken` is missing, the call returns the
literal placeholder `"mock_access_token"` without any upstream call;
otherwise the exchange runs and is cached with a 60 s margin. -/
def adsGetAccessToken (clientId clientSecret refreshToken : Option String)
    (accessToken : Option String) (tokenExpiry : Option ℚ) (now : ℤ)
    (exchange : Except String TokenExchangeResult) : TokenOutcome :=
  if truthy accessToken ∧ tokenExpiry.getD 0 ≠ 0 ∧ (now : ℚ) < tokenExpiry.getD 0 then
    { result := .ok ((accessToken).getD ""), cache := none, exchanged := false }
  else if ¬ (truthy clientId ∧ truthy clientSecret ∧ truthy refreshToken) then
    { result := .ok "mock_access_token", cache := none, exchanged := false }
  else
    match exchange with
    | .ok d =>
      { result := .ok d.access_token,
        cache := some ⟨d.access_token, (now : ℚ) + d.expires_in * 1000 - 60000⟩,
        exchanged := true }
    | .error e => { result := .error e, cache := none, exchanged := true }

/-! ## Cron ingestion handlers

`src/pages/api/cron/ingest-sales.js` and
`src/pages/api/cron/ingest-ads.js`, modelled from the shared-secret check
onward.  Request-parameter resolution (template placeholders, date
validation) is a pure function of the request and the clock that runs
before any side effect; the handlers below take the resolved parameters
directly.  Upstream fetches are oracles; `upstreamCalls` counts how many
upstream fetch operations were invoked. -/

/-- The shared-secret check
(`!cronSecret || cronSecret !== process.env.CRON_SECRET`), on the
`x-cron-secret` header and the configured `CRON_SECRET` (either may be
absent; an empty header string is falsy). -/
def cronAuthorized (header envSecret : Option String) : Bool :=
  truthy header && header == envSecret

/-- One `ingestion_logs` entry (`logIngestion`'s payload, details
abstracted to the type/status pair the claims mention). -/
structure LogEntry where
  ingestion_type : String
  status : String
  deriving DecidableEq, Repr

/-- The value returned by the production `getSalesData` on success. -/
structure SalesResult where
  metrics : List Metric
  totalRecordsProcessed : ℕ
  nonZeroRecords : ℕ
  deriving DecidableEq, Repr

/-- The durable tables the sales ingestion run writes through the
gateway. -/
structure SPStore where
  sales : Table (String × String × String) SalesRow
  orders : Table String OrderRow

/-- Observable outcome of one sales-ingestion handler invocation. -/
structure SalesOut where
  status : ℕ
  store : SPStore
  logs : List LogEntry
  upstreamCalls : ℕ
  /-- `recordsProcessed: { sales, orders }` of the 200 body, when present. -/
  recordsProcessed : Option (ℕ × ℕ)

/-- `handler` of `src/pages/api/cron/ingest-sales.js`: authenticate,
check the method, log `started`, fetch sales (500 and a `failed` log on
error), short-circuit on an empty metric list, upsert sales, best-effort
fetch-and-upsert orders (failures swallowed), log `completed`, 200. -/
def salesHandler (secretHeader envSecret : Option String) (method : String)
    (salesFetch : Except String SalesResult)
    (ordersFetch : Except String (List OrderInput))
    (now : String) (store : SPStore) : SalesOut :=
  if ¬ cronAuthorized secretHeader envSecret then
    { status := 401, store := store, logs := [], upstreamCalls := 0,
      recordsProcessed := none }
  else if ¬ (method = "POST" ∨ method = "GET") then
    { status := 405, store := store, logs := [], upstreamCalls := 0,
      recordsProcessed := none }
  else
    let logs0 : List LogEntry := [⟨"sales", "started"⟩]
    match salesFetch with
    | .error _ =>
      { status := 500, store := store, logs := logs0 ++ [⟨"sales", "failed"⟩],
        upstreamCalls := 1, recordsProcessed := none }
    | .ok sr =>
      if sr.metrics.isEmpty then
        { status := 200, store := store, logs := logs0 ++ [⟨"sales", "completed"⟩],
          upstreamCalls := 1, recordsProcessed := some (0, 0) }
      else
        let salesRes := upsertSalesData sr.metrics "sp-api-cron" now store.sales
        let store1 : SPStore := { store with sales := salesRes.1 }
        let ordersRes : SPStore × ℕ :=
          match ordersFetch with
          | .ok os =>
            if os.isEmpty then (store1, 0)
            else
              let r := upsertOrdersData os "sp-api-cron" now store1.orders
              ({ store1 with orders := r.1 }, r.2)
          | .error _ => (store1, 0)
        { status := 200, store := ordersRes.1,
          logs := logs0 ++ [⟨"sales", "completed"⟩], upstreamCalls := 2,
          recordsProcessed := some (salesRes.2, ordersRes.2) }

/-- A value of the ads success-response `summary` object: a plain number,
a number rendered with `toFixed(2)`, a percentage rendered with
`toFixed(3) + '%'`, or a literal string (decimal rendering abstracted;
the carried rational is the exact pre-rendering value). -/
inductive SVal where
  | num (q : ℚ)
  | fixed2 (q : ℚ)
  | pct3 (q : ℚ)
  | str (s : String)
  deriving DecidableEq, Repr

/-- The durable table the ads ingestion run writes. -/
structure AdsStore where
  campaigns : Table (String × Option String) AdsRow

/-- Observable outcome of one ads-ingestion handler invocation. -/
structure AdsOut where
  status : ℕ
  store : AdsStore
  logs : List LogEntry
  upstreamCalls : ℕ
  /-- The `summary` object of the 200 body, as ordered key/value pairs,
  when the response carries one. -/
  summary : Option (List (String × SVal))
  recordsProcessed : Option ℕ

/-- The summary statistics of the ads handler (ingest-ads.js lines
325-347), computed over the type-filtered campaign batch. -/
def buildSummary (cs : List AdsCampaign) : List (String × SVal) :=
  let totalImpressions := (cs.map (fun c => numOr0 c.impressions)).sum
  let totalClicks := (cs.map (fun c => numOr0 c.clicks)).sum
  let totalCost := (cs.map (fun c => numOr0 c.cost)).sum
  let totalSales := (cs.map (fun c => numOr0 c.sales_7d)).sum
  [("totalImpressions", .num totalImpressions),
   ("totalClicks", .num totalClicks),
   ("totalCost", .num (jsToFixed 2 totalCost)),
   ("totalSales", .num (jsToFixed 2 totalSales)),
   ("averageCTR",
     if 0 < totalImpressions then .pct3 (totalClicks / totalImpressions * 100)
     else .str "0%"),
   ("averageROAS",
     if 0 < totalCost then .fixed2 (totalSales / totalCost) else .str "0")]

/-- The campaign-type filter of the ads handler (lines 283-288). -/
def filterCampaigns (campaignType : String) (cs : List AdsCampaign) : List AdsCampaign :=
  if campaignType = "all" then cs
  else cs.filter (fun c => c.campaign_type == some campaignType)

/-- `handler` of `src/pages/api/cron/ingest-ads.js`: authenticate, check
the method, log `started`, fetch campaigns (`getCampaignsData` never
throws — it falls back to mock data internally), short-circuit on an
empty list, filter by campaign type, upsert, log `completed`, respond 200
with the summary over the filtered batch. -/
def adsHandler (secretHeader envSecret : Option String) (method : String)
    (campaignType : String) (fetched : List AdsCampaign)
    (defaultUserId : Option String) (now : String) (store : AdsStore) : AdsOut :=
  if ¬ cronAuthorized secretHeader envSecret then
    { status := 401, store := store, logs := [], upstreamCalls := 0,
      summary := none, recordsProcessed := none }
  else if ¬ (method = "POST" ∨ method = "GET") then
    { status := 405, store := store, logs := [], upstreamCalls := 0,
      summary := none, recordsProcessed := none }
  else
    let logs0 : List LogEntry := [⟨"ads", "started"⟩]
    if fetched.isEmpty then
      { status := 200, store := store, logs := logs0 ++ [⟨"ads", "completed"⟩],
        upstreamCalls := 1, summary := none, recordsProcessed := some 0 }
    else
      let filtered := filterCampaigns campaignType fetched
      let upsertRes := upsertAdsData filtered defaultUserId now store.campaigns
      { status := 200, store := { campaigns := upsertRes.1 },
        logs := logs0 ++ [⟨"ads", "completed"⟩], upstreamCalls := 1,
        summary := some (buildSummary filtered), recordsProcessed := some upsertRes.2 }

/-! ## Lemmas: the `getSalesData` grouping loop -/

/-- First entry with the given date, mirroring `dateMetrics.get(dateStr)`. -/
def lookupDate : List DayMetric → String → Option DayMetric
  | [], _ => none
  | m :: rest, d => if m.date = d then some m else lookupDate rest d

/-- The `date` stored in a grouping entry is the key it is found under. -/
theorem lookupDate_date {l : List DayMetric} {d : String} {m : DayMetric}
    (h : lookupDate l d = some m) : m.date = d := by
  induction l with
  | nil => simp [lookupDate] at h
  | cons a rest ih =>
    by_cases ha : a.date = d
    · rw [lookupDate, if_pos ha] at h
      cases h
      exact ha
    · rw [lookupDate, if_neg ha] at h
      exact ih h

theorem lookupDate_addItem_self (acc : List DayMetric) (d : String) (item : PayloadItem) :
    lookupDate (addItem acc d item) d =
      some (match lookupDate acc d with
            | some m =>
              { m with unitCount := m.unitCount + numOr0 item.unitCount,
                       orderItemCount := m.orderItemCount + numOr0 item.orderItemCount,
                       orderCount := m.orderCount + numOr0 item.orderCount,
                       totalSales := m.totalSales + numOr0 item.totalSalesAmount }
            | none =>
              { date := d, unitCount := numOr0 item.unitCount,
                orderItemCount := numOr0 item.orderItemCount,
                orderCount := numOr0 item.orderCount,
                totalSales := numOr0 item.totalSalesAmount }) := by
  induction acc with
  | nil => simp [addItem, lookupDate]
  | cons m rest ih =>
    by_cases hm : m.date = d
    · simp [addItem, lookupDate, hm]
    · simp [addItem, lookupDate, hm, ih]

theorem lookupDate_addItem_ne (acc : List DayMetric) (d d' : String) (item : PayloadItem)
    (h : d' ≠ d) : lookupDate (addItem acc d item) d' = lookupDate acc d' := by
  induction acc with
  | nil => simp [addItem, lookupDate, Ne.symm h]
  | cons m rest ih =>
    by_cases hm : m.date = d
    · have hmd : ¬ (m.date = d') := by rw [hm]; exact Ne.symm h
      simp [addItem, lookupDate, hm, hmd, Ne.symm h, h]
    · by_cases hm' : m.date = d'
      · simp [addItem, lookupDate, hm, hm', Ne.symm h, h]
      · simp [addItem, lookupDate, hm, hm', ih, Ne.symm h, h]

theorem dates_addItem (acc : List DayMetric) (d : String) (item : PayloadItem) :
    (addItem acc d item).map (fun m => m.date) =
      if (lookupDate acc d).isSome then acc.map (fun m => m.date)
      else acc.map (fun m => m.date) ++ [d] := by
  induction acc with
  | nil => simp [addItem, lookupDate]
  | cons m rest ih =>
    by_cases hm : m.date = d
    · simp [addItem, lookupDate, hm]
    · by_cases h : (lookupDate rest d).isSome
      · simp [addItem, lookupDate, hm, h, ih]
      · simp [addItem, lookupDate, hm, h, ih]

theorem lookupDate_isSome_iff (l : List DayMetric) (d : String) :
    (lookupDate l d).isSome ↔ d ∈ l.map (fun m => m.date) := by
  induction l with
  | nil => simp [lookupDate]
  | cons m rest ih =>
    by_cases hm : m.date = d
    · simp [lookupDate, hm]
    · simp [lookupDate, hm, ih, Ne.symm hm]

theorem nodup_dates_addItem (acc : List DayMetric) (d : String) (item : PayloadItem)
    (h : (acc.map (fun m => m.date)).Nodup) :
    ((addItem acc d item).map (fun m => m.date)).Nodup := by
  rw [dates_addItem]
  by_cases hs : (lookupDate acc d).isSome
  · simpa [hs]
  · have hd : d ∉ acc.map (fun m => m.date) := by
      rw [← lookupDate_isSome_iff]; simpa using hs
    have hs' : (lookupDate acc d).isSome = false := by simpa using hs
    simp only [hs', Bool.false_eq_true, if_false]
    rw [List.nodup_append]
    refine ⟨h, List.nodup_singleton d, ?_⟩
    intro x hx hx2
    simp only [List.mem_singleton] at hx2
    subst hx2
    exact hd hx

/-- Full characterization of the grouping fold: the entry found under date
`d` after folding `payload` into `acc` carries `acc`'s entry (or a fresh
zero-initialized one) with the per-date sums of `payload` added on. -/
theorem lookupDate_foldl (payload : List PayloadItem) (sd : String) :
    ∀ (acc : List DayMetric) (d : String),
      lookupDate (payload.foldl (fun a i => addItem a (dateOf i sd) i) acc) d =
        match lookupDate acc d with
        | some m =>
          some { m with unitCount := m.unitCount + sumUnits payload sd d,
                        orderItemCount := m.orderItemCount + sumItems payload sd d,
                        orderCount := m.orderCount + sumOrders payload sd d,
                        totalSales := m.totalSales + sumSales payload sd d }
        | none =>
          if payload.any (fun i => dateOf i sd = d) then
            some { date := d, unitCount := sumUnits payload sd d,
                   orderItemCount := sumItems payload sd d,
                   orderCount := sumOrders payload sd d,
                   totalSales := sumSales payload sd d }
          else none := by
  induction payload with
  | nil =>
    intro acc d
    cases h : lookupDate acc d <;>
      simp [sumUnits, sumItems, sumOrders, sumSales, h]
  | cons i rest ih =>
    intro acc d
    rw [List.foldl_cons, ih]
    by_cases hi : dateOf i sd = d
    · rw [← hi, lookupDate_addItem_self]
      cases h : lookupDate acc (dateOf i sd) <;>
        simp [sumUnits, sumItems, sumOrders, sumSales, List.filter_cons, hi, h, add_assoc]
    · rw [lookupDate_addItem_ne _ _ _ _ (fun hdi => hi hdi.symm)]
      cases h : lookupDate acc d <;>
        simp [sumUnits, sumItems, sumOrders, sumSales, List.filter_cons, hi, h]

/-- `groupByDate` lookup: per-date sums when the date occurs, nothing
otherwise. -/
theorem lookupDate_groupByDate (payload : List PayloadItem) (sd d : String) :
    lookupDate (groupByDate payload sd) d =
      if payload.any (fun i => dateOf i sd = d) then
        some { date := d, unitCount := sumUnits payload sd d,
               orderItemCount := sumItems payload sd d,
               orderCount := sumOrders payload sd d,
               totalSales := sumSales payload sd d }
      else none := by
  have h := lookupDate_foldl payload sd [] d
  simpa [groupByDate, lookupDate] using h

/-- The dates of the grouped list are pairwise distinct. -/
theorem nodup_dates_groupByDate (payload : List PayloadItem) (sd : String) :
    ((groupByDate payload sd).map (fun m => m.date)).Nodup := by
  rw [groupByDate]
  generalize hacc : ([] : List DayMetric) = acc
  have hnd : (acc.map (fun m => m.date)).Nodup := by subst hacc; simp
  clear hacc
  induction payload generalizing acc with
  | nil => simpa using hnd
  | cons i rest ih =>
    rw [List.foldl_cons]
    exact ih _ (nodup_dates_addItem _ _ _ hnd)

/-- First normalized record with the given date. -/
def lookupMetric : List Metric → String → Option Metric
  | [], _ => none
  | m :: rest, d => if m.date = d then some m else lookupMetric rest d

theorem lookupMetric_map_toMetric (l : List DayMetric) (d : String) :
    lookupMetric (l.map toMetric) d = (lookupDate l d).map toMetric := by
  induction l with
  | nil => simp [lookupMetric, lookupDate]
  | cons m rest ih =>
    by_cases hm : m.date = d
    · simp [lookupMetric, lookupDate, toMetric, hm]
    · simp [lookupMetric, lookupDate, toMetric, hm, ih]

theorem lookupMetric_isSome_iff (l : List Metric) (d : String) :
    (lookupMetric l d).isSome ↔ d ∈ l.map (fun m => m.date) := by
  induction l with
  | nil => simp [lookupMetric]
  | cons m rest ih =>
    by_cases hm : m.date = d
    · simp [lookupMetric, hm]
    · simp [lookupMetric, hm, ih, Ne.symm hm]

theorem lookupMetric_mem {l : List Metric} {d : String} {m : Metric}
    (h : lookupMetric l d = some m) : m ∈ l := by
  induction l with
  | nil => simp [lookupMetric] at h
  | cons a rest ih =>
    by_cases ha : a.date = d
    · rw [lookupMetric, if_pos ha] at h
      cases h
      exact List.mem_cons_self _ _
    · rw [lookupMetric, if_neg ha] at h
      exact List.mem_cons_of_mem a (ih h)

/-- With pairwise-distinct dates, membership pins down the lookup. -/
theorem lookupMetric_of_mem {l : List Metric} {m : Metric}
    (hnd : (l.map (fun m => m.date)).Nodup) (hm : m ∈ l) :
    lookupMetric l m.date = some m := by
  induction l with
  | nil => simp at hm
  | cons a rest ih =>
    simp only [List.map_cons, List.nodup_cons] at hnd
    rcases List.mem_cons.mp hm with h | h
    · subst h
      simp [lookupMetric]
    · have hne : a.date ≠ m.date := by
        intro he
        exact hnd.1 (he ▸ List.mem_map_of_mem (fun m => m.date) h)
      rw [lookupMetric, if_neg hne]
      exact ih hnd.2 h

/-- A list whose images under `f` are pairwise distinct has at most one
element in any `f`-fiber. -/
theorem length_filter_fiber_le_one {α β : Type} [DecidableEq β] {l : List α} {f : α → β}
    (h : (l.map f).Nodup) (c : β) : (l.filter (fun x => f x = c)).length ≤ 1 := by
  induction l with
  | nil => simp
  | cons a rest ih =>
    simp only [List.map_cons, List.nodup_cons] at h
    by_cases hc : f a = c
    · have hrest : rest.filter (fun x => f x = c) = [] := by
        rw [List.filter_eq_nil_iff]
        intro x hx
        simp only [decide_eq_true_eq]
        intro hxc
        exact h.1 (by rw [hc, ← hxc]; exact List.mem_map_of_mem f hx)
      simp [List.filter_cons, hc, hrest]
    · simp only [List.filter_cons, hc, decide_False, if_false]
      exact ih h.2

theorem dates_rawMetrics (payload : List PayloadItem) (sd : String) :
    (rawMetrics payload sd).map (fun m => m.date) =
      (groupByDate payload sd).map (fun m => m.date) := by
  simp only [rawMetrics, List.map_map]
  exact List.map_congr_left (fun a _ => rfl)

theorem nodup_dates_rawMetrics (payload : List PayloadItem) (sd : String) :
    ((rawMetrics payload sd).map (fun m => m.date)).Nodup := by
  rw [dates_rawMetrics]
  exact nodup_dates_groupByDate payload sd

theorem lookupMetric_rawMetrics (payload : List PayloadItem) (sd d : String) :
    lookupMetric (rawMetrics payload sd) d =
      if payload.any (fun i => dateOf i sd = d) then
        some (toMetric { date := d, unitCount := sumUnits payload sd d,
                         orderItemCount := sumItems payload sd d,
                         orderCount := sumOrders payload sd d,
                         totalSales := sumSales payload sd d })
      else none := by
  rw [rawMetrics, lookupMetric_map_toMetric, lookupDate_groupByDate]
  by_cases h : payload.any (fun i => dateOf i sd = d) <;> simp [h]

/-! ## Claim C1 -/

/-- **C1** (amended): `getSalesData` groups the upstream line items by
calendar date. The normalized output contains at most one record per
date; its volume fields (`units_ordered`, `total_order_items`,
`ordered_product_sales`) equal the per-date sums of the line items'
fields; and a record for a date exists iff some line item falls on that
date and at least one of the sums is strictly positive (an all-zero date
is dropped by the zero-record filter, so "exactly one record" holds
exactly for the dates with a positive sum). -/
theorem getSalesData_merges_line_items_by_date (payload : List PayloadItem) (sd d : String) :
    ((getSalesDataMetrics payload sd).filter (fun m => m.date = d)).length ≤ 1
    ∧ (∀ m, m ∈ getSalesDataMetrics payload sd → m.date = d →
        m.units_ordered = sumUnits payload sd d ∧
        m.total_order_items = sumItems payload sd d ∧
        m.ordered_product_sales = sumSales payload sd d)
    ∧ ((∃ m ∈ getSalesDataMetrics payload sd, m.date = d) ↔
        ((∃ i ∈ payload, dateOf i sd = d) ∧
          (0 < sumUnits payload sd d ∨ 0 < sumItems payload sd d ∨
            0 < sumSales payload sd d))) := by
  have hnd := nodup_dates_rawMetrics payload sd
  have hofmem : ∀ m, m ∈ getSalesDataMetrics payload sd → m.date = d →
      payload.any (fun i => dateOf i sd = d) = true ∧
      m = toMetric { date := d, unitCount := sumUnits payload sd d,
                     orderItemCount := sumItems payload sd d,
                     orderCount := sumOrders payload sd d,
                     totalSales := sumSales payload sd d } := by
    intro m hm hmd
    have hraw : m ∈ rawMetrics payload sd := (List.mem_filter.mp hm).1
    have hlk := lookupMetric_of_mem hnd hraw
    rw [hmd, lookupMetric_rawMetrics] at hlk
    by_cases hany : payload.any (fun i => dateOf i sd = d) = true
    · rw [if_pos hany] at hlk
      exact ⟨hany, (Option.some_inj.mp hlk).symm⟩
    · rw [if_neg hany] at hlk
      cases hlk
  refine ⟨?_, ?_, ?_, ?_⟩
  · have hsub : List.Sublist
        ((getSalesDataMetrics payload sd).filter (fun m => m.date = d))
        ((rawMetrics payload sd).filter (fun m => m.date = d)) :=
      List.Sublist.filter _ (List.filter_sublist _)
    exact le_trans hsub.length_le (length_filter_fiber_le_one hnd d)
  · intro m hm hmd
    rw [(hofmem m hm hmd).2]
    exact ⟨rfl, rfl, rfl⟩
  · rintro ⟨m, hm, hmd⟩
    have hh := hofmem m hm hmd
    have hkeep : keepMetric m = true := (List.mem_filter.mp hm).2
    rw [hh.2] at hkeep
    simp only [keepMetric, toMetric, Bool.or_eq_true, decide_eq_true_eq] at hkeep
    refine ⟨?_, or_assoc.mp hkeep⟩
    rcases List.any_eq_true.mp hh.1 with ⟨i, hi, hdi⟩
    exact ⟨i, hi, of_decide_eq_true hdi⟩
  · rintro ⟨⟨i, hi, hdi⟩, hpos⟩
    have hany : payload.any (fun i => dateOf i sd = d) = true :=
      List.any_eq_true.mpr ⟨i, hi, decide_eq_true hdi⟩
    have hlk := lookupMetric_rawMetrics payload sd d
    rw [if_pos hany] at hlk
    refine ⟨_, List.mem_filter.mpr ⟨lookupMetric_mem hlk, ?_⟩, rfl⟩
    simp only [keepMetric, toMetric, Bool.or_eq_true, decide_eq_true_eq]
    exact or_assoc.mpr hpos

/-- **C1** counterexample to the claim as frozen: two raw line items on
the same calendar date (2024-03-05), all volume fields zero.  The
normalized output contains *no* record for that date (the all-zero group
is dropped), not "exactly one". -/
theorem getSalesData_same_date_zero_items_no_record :
    dateOf { interval := some "2024-03-05T00:00:00Z", unitCount := some 0,
             orderItemCount := some 0, orderCount := some 0,
             totalSalesAmount := some 0 } "2024-03-05" =
      dateOf { interval := some "2024-03-05T12:00:00Z", unitCount := some 0,
               orderItemCount := some 0, orderCount := some 0,
               totalSalesAmount := some 0 } "2024-03-05"
    ∧ getSalesDataMetrics
        [{ interval := some "2024-03-05T00:00:00Z", unitCount := some 0,
           orderItemCount := some 0, orderCount := some 0, totalSalesAmount := some 0 },
         { interval := some "2024-03-05T12:00:00Z", unitCount := some 0,
           orderItemCount := some 0, orderCount := some 0, totalSalesAmount := some 0 }]
        "2024-03-05" = [] := by
  have h1 : dateOf ⟨some "2024-03-05T00:00:00Z", some 0, some 0, some 0, some 0⟩
      "2024-03-05" = "2024-03-05" := by decide
  have h2 : dateOf ⟨some "2024-03-05T12:00:00Z", some 0, some 0, some 0, some 0⟩
      "2024-03-05" = "2024-03-05" := by decide
  refine ⟨by rw [h1, h2], ?_⟩
  norm_num [getSalesDataMetrics, rawMetrics, groupByDate, addItem, h1, h2, toMetric,
    keepMetric, numOr0]

/-- Witness for C1 at the spec's concrete scenario: the two 2024-01-01
line items (3 and 2 units, 30 and 20 sales) yield a record for that date,
and at most one. -/
theorem getSalesData_merges_line_items_by_date_witness :
    ((getSalesDataMetrics
        [{ interval := some "2024-01-01T00:00Z", unitCount := some 3,
           orderItemCount := none, orderCount := none, totalSalesAmount := some 30 },
         { interval := some "2024-01-01T12:00Z", unitCount := some 2,
           orderItemCount := none, orderCount := none, totalSalesAmount := some 20 }]
        "2024-01-01").filter (fun m => m.date = "2024-01-01")).length ≤ 1
    ∧ (∃ m ∈ getSalesDataMetrics
        [{ interval := some "2024-01-01T00:00Z", unitCount := some 3,
           orderItemCount := none, orderCount := none, totalSalesAmount := some 30 },
         { interval := some "2024-01-01T12:00Z", unitCount := some 2,
           orderItemCount := none, orderCount := none, totalSalesAmount := some 20 }]
        "2024-01-01", m.date = "2024-01-01") := by
  have h := getSalesData_merges_line_items_by_date
    [{ interval := some "2024-01-01T00:00Z", unitCount := some 3,
       orderItemCount := none, orderCount := none, totalSalesAmount := some 30 },
     { interval := some "2024-01-01T12:00Z", unitCount := some 2,
       orderItemCount := none, orderCount := none, totalSalesAmount := some 20 }]
    "2024-01-01" "2024-01-01"
  have hd1 : dateOf ⟨some "2024-01-01T00:00Z", some 3, none, none, some 30⟩
      "2024-01-01" = "2024-01-01" := by decide
  have hd2 : dateOf ⟨some "2024-01-01T12:00Z", some 2, none, none, some 20⟩
      "2024-01-01" = "2024-01-01" := by decide
  refine ⟨h.1, h.2.2.mpr ⟨⟨_, List.mem_cons_self _ _, hd1⟩, Or.inl ?_⟩⟩
  norm_num [sumUnits, List.filter_cons, hd1, hd2, numOr0]

/-! ## Claim C8 -/

/-- **C8** (amended): the zero-record filter of `getSalesData` keeps a
normalized record iff at least one of its three volume fields is
*strictly positive*; in particular every record whose three volume fields
are all zero is excluded.  (A record whose only nonzero field is
negative is excluded too, which is where the claim as frozen fails.) -/
theorem zero_volume_records_excluded (payload : List PayloadItem) (sd : String) :
    (∀ m ∈ getSalesDataMetrics payload sd,
      0 < m.units_ordered ∨ 0 < m.total_order_items ∨ 0 < m.ordered_product_sales)
    ∧ (∀ m ∈ rawMetrics payload sd,
        (0 < m.units_ordered ∨ 0 < m.total_order_items ∨ 0 < m.ordered_product_sales) →
        m ∈ getSalesDataMetrics payload sd)
    ∧ (∀ m ∈ rawMetrics payload sd,
        m.units_ordered = 0 → m.total_order_items = 0 → m.ordered_product_sales = 0 →
        m ∉ getSalesDataMetrics payload sd) := by
  refine ⟨?_, ?_, ?_⟩
  · intro m hm
    have h := (List.mem_filter.mp hm).2
    simpa [keepMetric, or_assoc] using h
  · intro m hm hpos
    refine List.mem_filter.mpr ⟨hm, ?_⟩
    simpa [keepMetric, or_assoc] using hpos
  · intro m _ h1 h2 h3 hcon
    have h := (List.mem_filter.mp hcon).2
    simp [keepMetric, h1, h2, h3] at h

/-- **C8** counterexample to the claim as frozen: a single line item with
`totalSales.amount = -1` normalizes to a record whose
`ordered_product_sales` is nonzero (`-1`), yet the record is excluded
from the output, because the filter tests strict positivity. -/
theorem nonzero_negative_record_excluded :
    rawMetrics [⟨some "2024-03-05T00:00:00Z", some 0, some 0, some 0, some (-1)⟩]
        "2024-03-05" =
      [{ date := "2024-03-05", units_ordered := 0, units_shipped := 0,
         ordered_product_sales := -1, shipped_product_sales := -1,
         total_order_items := 0 }]
    ∧ getSalesDataMetrics
        [⟨some "2024-03-05T00:00:00Z", some 0, some 0, some 0, some (-1)⟩]
        "2024-03-05" = [] := by
  have h1 : dateOf ⟨some "2024-03-05T00:00:00Z", some 0, some 0, some 0, some (-1)⟩
      "2024-03-05" = "2024-03-05" := by decide
  constructor
  · norm_num [rawMetrics, groupByDate, addItem, h1, toMetric, numOr0]
  · norm_num [getSalesDataMetrics, rawMetrics, groupByDate, addItem, h1, toMetric,
      keepMetric, numOr0]

/-- Witness for C8: applying the theorem at a one-item payload with one
ordered unit shows the (positive-volume) record is retained. -/
theorem zero_volume_records_excluded_witness :
    { date := "2024-04-01", units_ordered := (1 : ℚ), units_shipped := 1,
      ordered_product_sales := 0, shipped_product_sales := 0,
      total_order_items := 0 } ∈
      getSalesDataMetrics [⟨none, some 1, none, none, none⟩] "2024-04-01" := by
  have h := (zero_volume_records_excluded [⟨none, some 1, none, none, none⟩] "2024-04-01").2.1
  have hraw : rawMetrics [⟨none, some 1, none, none, none⟩] "2024-04-01" =
      [{ date := "2024-04-01", units_ordered := 1, units_shipped := 1,
         ordered_product_sales := 0, shipped_product_sales := 0,
         total_order_items := 0 }] := by
    norm_num [rawMetrics, groupByDate, addItem, dateOf, toMetric, numOr0]
  refine h _ ?_ (Or.inl (by norm_num))
  rw [hraw]
  exact List.mem_cons_self _ _

/-! ## Lemmas: the gateway's in-batch merges -/

/-- Per-date sum of `units_ordered` over a gateway input batch. -/
def sumUnitsM (batch : List Metric) (d : String) : ℚ :=
  ((batch.filter (fun r => r.date = d)).map (fun r => r.units_ordered)).sum

/-- Per-date sum of `total_order_items` over a gateway input batch. -/
def sumItemsM (batch : List Metric) (d : String) : ℚ :=
  ((batch.filter (fun r => r.date = d)).map (fun r => r.total_order_items)).sum

/-- Per-date sum of `ordered_product_sales` over a gateway input batch. -/
def sumSalesM (batch : List Metric) (d : String) : ℚ :=
  ((batch.filter (fun r => r.date = d)).map (fun r => r.ordered_product_sales)).sum

theorem lookupMetric_mergeSalesInto_self (acc : List Metric) (r : Metric) :
    lookupMetric (mergeSalesInto acc r) r.date =
      some (match lookupMetric acc r.date with
            | some m =>
              { m with units_ordered := m.units_ordered + r.units_ordered,
                       total_order_items := m.total_order_items + r.total_order_items,
                       ordered_product_sales :=
                         m.ordered_product_sales + r.ordered_product_sales }
            | none => r) := by
  induction acc with
  | nil => simp [mergeSalesInto, lookupMetric]
  | cons m rest ih =>
    by_cases hm : m.date = r.date
    · simp [mergeSalesInto, lookupMetric, hm]
    · simp [mergeSalesInto, lookupMetric, hm, ih]

theorem lookupMetric_mergeSalesInto_ne (acc : List Metric) (r : Metric) (d' : String)
    (h : d' ≠ r.date) :
    lookupMetric (mergeSalesInto acc r) d' = lookupMetric acc d' := by
  induction acc with
  | nil => simp [mergeSalesInto, lookupMetric, Ne.symm h]
  | cons m rest ih =>
    by_cases hm : m.date = r.date
    · have hmd : ¬ (m.date = d') := by rw [hm]; exact Ne.symm h
      simp [mergeSalesInto, lookupMetric, hm, hmd, Ne.symm h, h]
    · by_cases hm' : m.date = d'
      · simp [mergeSalesInto, lookupMetric, hm, hm', Ne.symm h, h]
      · simp [mergeSalesInto, lookupMetric, hm, hm', ih, Ne.symm h, h]

/-- Full characterization of the sales-gateway dedupe fold. -/
theorem lookupMetric_foldl_merge (batch : List Metric) :
    ∀ (acc : List Metric) (d : String),
      lookupMetric (batch.foldl mergeSalesInto acc) d =
        match lookupMetric acc d with
        | some m =>
          some { m with units_ordered := m.units_ordered + sumUnitsM batch d,
                        total_order_items := m.total_order_items + sumItemsM batch d,
                        ordered_product_sales :=
                          m.ordered_product_sales + sumSalesM batch d }
        | none =>
          match batch.find? (fun r => r.date = d) with
          | some r0 =>
            some { r0 with units_ordered := sumUnitsM batch d,
                           total_order_items := sumItemsM batch d,
                           ordered_product_sales := sumSalesM batch d }
          | none => none := by
  induction batch with
  | nil =>
    intro acc d
    cases h : lookupMetric acc d <;>
      simp [sumUnitsM, sumItemsM, sumSalesM, List.find?, h]
  | cons r rest ih =>
    intro acc d
    rw [List.foldl_cons, ih]
    by_cases hr : r.date = d
    · rw [← hr, lookupMetric_mergeSalesInto_self]
      cases h : lookupMetric acc r.date <;>
        simp [sumUnitsM, sumItemsM, sumSalesM, List.filter_cons, List.find?_cons, hr, h,
          add_assoc]
    · rw [lookupMetric_mergeSalesInto_ne _ _ _ (fun hdr => hr hdr.symm)]
      cases h : lookupMetric acc d <;>
        simp [sumUnitsM, sumItemsM, sumSalesM, List.filter_cons, List.find?_cons, hr, h]

/-- `dedupeSales` lookup: the first input record of each date with the
per-date sums in its three summed fields. -/
theorem lookupMetric_dedupeSales (batch : List Metric) (d : String) :
    lookupMetric (dedupeSales batch) d =
      match batch.find? (fun r => r.date = d) with
      | some r0 =>
        some { r0 with units_ordered := sumUnitsM batch d,
                       total_order_items := sumItemsM batch d,
                       ordered_product_sales := sumSalesM batch d }
      | none => none := by
  have h := lookupMetric_foldl_merge batch [] d
  simpa [dedupeSales, lookupMetric] using h

theorem dates_mergeSalesInto (acc : List Metric) (r : Metric) :
    (mergeSalesInto acc r).map (fun m => m.date) =
      if (lookupMetric acc r.date).isSome then acc.map (fun m => m.date)
      else acc.map (fun m => m.date) ++ [r.date] := by
  induction acc with
  | nil => simp [mergeSalesInto, lookupMetric]
  | cons m rest ih =>
    by_cases hm : m.date = r.date
    · simp [mergeSalesInto, lookupMetric, hm]
    · by_cases h : (lookupMetric rest r.date).isSome
      · simp [mergeSalesInto, lookupMetric, hm, h, ih]
      · simp [mergeSalesInto, lookupMetric, hm, h, ih]

theorem nodup_dates_mergeSalesInto (acc : List Metric) (r : Metric)
    (h : (acc.map (fun m => m.date)).Nodup) :
    ((mergeSalesInto acc r).map (fun m => m.date)).Nodup := by
  rw [dates_mergeSalesInto]
  by_cases hs : (lookupMetric acc r.date).isSome
  · simpa [hs]
  · have hd : r.date ∉ acc.map (fun m => m.date) := by
      rw [← lookupMetric_isSome_iff]; simpa using hs
    have hs' : (lookupMetric acc r.date).isSome = false := by simpa using hs
    simp only [hs', Bool.false_eq_true, if_false]
    rw [List.nodup_append]
    refine ⟨h, List.nodup_singleton _, ?_⟩
    intro x hx hx2
    simp only [List.mem_singleton] at hx2
    subst hx2
    exact hd hx

theorem nodup_dates_dedupeSales (batch : List Metric) :
    ((dedupeSales batch).map (fun m => m.date)).Nodup := by
  rw [dedupeSales]
  generalize hacc : ([] : List Metric) = acc
  have hnd : (acc.map (fun m => m.date)).Nodup := by subst hacc; simp
  clear hacc
  induction batch generalizing acc with
  | nil => simpa using hnd
  | cons r rest ih =>
    rw [List.foldl_cons]
    exact ih _ (nodup_dates_mergeSalesInto _ _ hnd)

/-- First campaign record with the given `campaign_id`. -/
def lookupAds : List AdsCampaign → String → Option AdsCampaign
  | [], _ => none
  | c :: rest, k => if c.campaign_id = k then some c else lookupAds rest k

theorem lookupAds_isSome_iff (l : List AdsCampaign) (k : String) :
    (lookupAds l k).isSome ↔ k ∈ l.map (fun c => c.campaign_id) := by
  induction l with
  | nil => simp [lookupAds]
  | cons c rest ih =>
    by_cases hc : c.campaign_id = k
    · simp [lookupAds, hc]
    · simp [lookupAds, hc, ih, Ne.symm hc]

theorem ids_mergeAdsInto (acc : List AdsCampaign) (r : AdsCampaign) :
    (mergeAdsInto acc r).map (fun c => c.campaign_id) =
      if (lookupAds acc r.campaign_id).isSome then acc.map (fun c => c.campaign_id)
      else acc.map (fun c => c.campaign_id) ++ [r.campaign_id] := by
  induction acc with
  | nil => simp [mergeAdsInto, lookupAds]
  | cons c rest ih =>
    by_cases hc : c.campaign_id = r.campaign_id
    · cases hn : newerThan r c <;> simp [mergeAdsInto, lookupAds, hc, hn]
    · by_cases h : (lookupAds rest r.campaign_id).isSome
      · simp [mergeAdsInto, lookupAds, hc, h, ih]
      · simp [mergeAdsInto, lookupAds, hc, h, ih]

theorem nodup_ids_mergeAdsInto (acc : List AdsCampaign) (r : AdsCampaign)
    (h : (acc.map (fun c => c.campaign_id)).Nodup) :
    ((mergeAdsInto acc r).map (fun c => c.campaign_id)).Nodup := by
  rw [ids_mergeAdsInto]
  by_cases hs : (lookupAds acc r.campaign_id).isSome
  · simpa [hs]
  · have hd : r.campaign_id ∉ acc.map (fun c => c.campaign_id) := by
      rw [← lookupAds_isSome_iff]; simpa using hs
    have hs' : (lookupAds acc r.campaign_id).isSome = false := by simpa using hs
    simp only [hs', Bool.false_eq_true, if_false]
    rw [List.nodup_append]
    refine ⟨h, List.nodup_singleton _, ?_⟩
    intro x hx hx2
    simp only [List.mem_singleton] at hx2
    subst hx2
    exact hd hx

theorem nodup_ids_dedupeAds (batch : List AdsCampaign) :
    ((dedupeAds batch).map (fun c => c.campaign_id)).Nodup := by
  rw [dedupeAds]
  generalize hacc : ([] : List AdsCampaign) = acc
  have hnd : (acc.map (fun c => c.campaign_id)).Nodup := by subst hacc; simp
  clear hacc
  induction batch generalizing acc with
  | nil => simpa using hnd
  | cons r rest ih =>
    rw [List.foldl_cons]
    exact ih _ (nodup_ids_mergeAdsInto _ _ hnd)

/-! ## Claim C4 -/

/-- **C4** (amended): the persistence gateway *does* perform in-batch
merge logic of its own.  `upsertSalesData` collapses records sharing a
date into one, summing `units_ordered`, `total_order_items` and
`ordered_product_sales` (the remaining fields come from the first record
of that date), and only then transforms and upserts; `upsertAdsData`
collapses records sharing a `campaign_id`, keeping the record with the
strictly latest `updated_at` (the earlier of two otherwise).  After each
merge the batch has at most one entry per conflict key. -/
theorem gateway_merges_duplicates_in_batch (batch : List Metric) (d : String)
    (r1 r2 : AdsCampaign) (hid : r1.campaign_id = r2.campaign_id)
    (ab : List AdsCampaign) :
    (lookupMetric (dedupeSales batch) d =
      match batch.find? (fun r => r.date = d) with
      | some r0 =>
        some { r0 with units_ordered := sumUnitsM batch d,
                       total_order_items := sumItemsM batch d,
                       ordered_product_sales := sumSalesM batch d }
      | none => none)
    ∧ ((dedupeSales batch).map (fun m => m.date)).Nodup
    ∧ dedupeAds [r1, r2] = [if newerThan r2 r1 then r2 else r1]
    ∧ ((dedupeAds ab).map (fun c => c.campaign_id)).Nodup := by
  refine ⟨lookupMetric_dedupeSales batch d, nodup_dates_dedupeSales batch, ?_,
    nodup_ids_dedupeAds ab⟩
  simp [dedupeAds, mergeAdsInto, hid]

/-- **C4** counterexample to the claim as frozen: a batch of two sales
records for the same date is *not* passed through with each record's
count/sum fields unchanged — the gateway hands the store a single row
with the fields summed (1+2 units, 1+1 order items, 10+20 sales). -/
theorem gateway_no_merge_counterexample :
    salesRowsOf
      [{ date := "2024-03-05", units_ordered := 1, units_shipped := 1,
         ordered_product_sales := 10, shipped_product_sales := 10,
         total_order_items := 1 },
       { date := "2024-03-05", units_ordered := 2, units_shipped := 2,
         ordered_product_sales := 20, shipped_product_sales := 20,
         total_order_items := 1 }] "sp-api-cron" "2024-03-06T00:00:00Z" =
      [{ date := "2024-03-05", marketplace_id := "ATVPDKIKX0DER", unit_count := 3,
         order_item_count := 2, order_count := 3, average_unit_price := 10,
         total_sales := 30, granularity := "Day", source := "sp-api-cron",
         created_at := "2024-03-06T00:00:00Z",
         updated_at := "2024-03-06T00:00:00Z" }] := by
  norm_num [salesRowsOf, dedupeSales, mergeSalesInto, toSalesRow, jsToFixed, round_eq]

/-- Witness for C4 at a concrete two-record batch: the deduped batch has
the summed entry under date 2024-03-05. -/
theorem gateway_merges_duplicates_in_batch_witness :
    lookupMetric (dedupeSales
      [{ date := "2024-03-05", units_ordered := 1, units_shipped := 1,
         ordered_product_sales := 10, shipped_product_sales := 10,
         total_order_items := 1 },
       { date := "2024-03-05", units_ordered := 2, units_shipped := 2,
         ordered_product_sales := 20, shipped_product_sales := 20,
         total_order_items := 1 }]) "2024-03-05" =
      some { date := "2024-03-05", units_ordered := 3, units_shipped := 1,
             ordered_product_sales := 30, shipped_product_sales := 10,
             total_order_items := 2 } := by
  have h := (gateway_merges_duplicates_in_batch
    [{ date := "2024-03-05", units_ordered := 1, units_shipped := 1,
       ordered_product_sales := 10, shipped_product_sales := 10,
       total_order_items := 1 },
     { date := "2024-03-05", units_ordered := 2, units_shipped := 2,
       ordered_product_sales := 20, shipped_product_sales := 20,
       total_order_items := 1 }] "2024-03-05"
    { campaign_id := "c", campaign_name := none, campaign_type := none,
      status := none, daily_budget := none, target_acos := none,
      impressions := none, clicks := none, cost := none, spend := none,
      sales := none, sales_7d := none, orders := none, start_date := none,
      end_date := none, sku := none, created_at := none, user_id := none,
      updated_at := none }
    { campaign_id := "c", campaign_name := none, campaign_type := none,
      status := none, daily_budget := none, target_acos := none,
      impressions := none, clicks := none, cost := none, spend := none,
      sales := none, sales_7d := none, orders := none, start_date := none,
      end_date := none, sku := none, created_at := none, user_id := none,
      updated_at := none } rfl []).1
  rw [h]
  norm_num [sumUnitsM, sumItemsM, sumSalesM, List.find?_cons]

/-! ## Claim C2 -/

/-- **C2** counterexample to the claim as frozen: after draining five
tokens at `t = 0`, a call at `t = 500` and another at `t = 1400`.  Under
the claim's refill rule (add `elapsed × rate` tokens and update the
timestamp on *every* call, `SpecLimiter`), the call at `t = 1400` finds
only `0.9` tokens and waits 1000 ms; the code's `_refillTokens` adds
`Math.floor(elapsed/1000 × rate)` tokens and leaves the timestamp alone
when that floor is zero, so at `t = 1400` it has accrued a whole token
and returns immediately.  Same call sequence, different outcome on the
seventh call. -/
theorem refill_rule_differs_from_spec_wording :
    (SPRateLimiter.runCalls (SPRateLimiter.init 1 5 0) [0, 0, 0, 0, 0, 500, 1400]).2 =
      [none, none, none, none, none, some 1000, none]
    ∧ (SpecLimiter.runCalls (SpecLimiter.init 1 5 0) [0, 0, 0, 0, 0, 500, 1400]).2 =
      [none, none, none, none, none, some 1000, some 1000] := by
  constructor
  · norm_num [SPRateLimiter.runCalls, SPRateLimiter.init, SPRateLimiter.waitForToken,
      SPRateLimiter.refillTokens]
  · norm_num [SpecLimiter.runCalls, SpecLimiter.init, SpecLimiter.acquire]

/-- **C2** (amended): on every call the limiter first adds
`⌊elapsed-ms / 1000 × refillRatePerSecond⌋` tokens capped at capacity,
updating the last-refill timestamp only when that floored amount is
positive; if at least one token is then available it decrements and
returns immediately; otherwise it waits `⌈1000 / refillRatePerSecond⌉`
milliseconds and then decrements with a floor at zero.  With capacity 5
and refill rate 1/s, five immediate acquires complete without delay and
a sixth immediate acquire waits 1000 ms. -/
theorem waitForToken_floored_refill_behavior :
    (∀ (s : SPRateLimiter) (now : ℤ),
      (SPRateLimiter.refillTokens s now).tokens =
        (if 0 < ⌊((now - s.lastRefill : ℤ) : ℚ) / 1000 * s.requestsPerSecond⌋ then
          min s.maxBurst
            (s.tokens + ⌊((now - s.lastRefill : ℤ) : ℚ) / 1000 * s.requestsPerSecond⌋)
        else s.tokens)
      ∧ (SPRateLimiter.refillTokens s now).lastRefill =
        (if 0 < ⌊((now - s.lastRefill : ℤ) : ℚ) / 1000 * s.requestsPerSecond⌋ then now
        else s.lastRefill))
    ∧ (∀ (s : SPRateLimiter) (now : ℤ),
        ((SPRateLimiter.waitForToken s now).2 = none ↔
          1 ≤ (SPRateLimiter.refillTokens s now).tokens)
        ∧ ((SPRateLimiter.waitForToken s now).2 = none →
            (SPRateLimiter.waitForToken s now).1.tokens =
              (SPRateLimiter.refillTokens s now).tokens - 1)
        ∧ ((SPRateLimiter.waitForToken s now).2 ≠ none →
            (SPRateLimiter.waitForToken s now).2 =
                some ⌈(1000 : ℚ) / s.requestsPerSecond⌉
            ∧ (SPRateLimiter.waitForToken s now).1.tokens =
                max 0 ((SPRateLimiter.refillTokens s now).tokens - 1)))
    ∧ (∀ t0 : ℤ,
        (SPRateLimiter.runCalls (SPRateLimiter.init 1 5 t0) [t0, t0, t0, t0, t0, t0]).2 =
          [none, none, none, none, none, some 1000]) := by
  refine ⟨?_, ?_, ?_⟩
  · intro s now
    rw [SPRateLimiter.refillTokens]
    split_ifs with h <;> exact ⟨rfl, rfl⟩
  · intro s now
    rw [SPRateLimiter.waitForToken]
    split_ifs with h
    · exact ⟨by simp [h], fun _ => rfl, fun hc => absurd rfl hc⟩
    · refine ⟨by simp [h], ?_, fun _ => ⟨rfl, rfl⟩⟩
      intro hc
      exact absurd hc (by simp)
  · intro t0
    norm_num [SPRateLimiter.runCalls, SPRateLimiter.init, SPRateLimiter.waitForToken,
      SPRateLimiter.refillTokens]

/-- Witness for C2 at a concrete state: a sixth immediate call on a
drained capacity-5 limiter suspends, and it suspends for exactly
`⌈1000 / 1⌉ = 1000` ms, landing at zero tokens. -/
theorem waitForToken_floored_refill_behavior_witness :
    (SPRateLimiter.waitForToken ⟨1, 5, 0, 0⟩ 0).2 = some 1000
    ∧ (SPRateLimiter.waitForToken ⟨1, 5, 0, 0⟩ 0).1.tokens = 0 := by
  have h := ((waitForToken_floored_refill_behavior.2.1 ⟨1, 5, 0, 0⟩ 0).2.2 (by
    intro hc
    have h1 := (waitForToken_floored_refill_behavior.2.1 ⟨1, 5, 0, 0⟩ 0).1.mp hc
    norm_num [SPRateLimiter.refillTokens] at h1))
  have hr : (SPRateLimiter.refillTokens ⟨1, 5, 0, 0⟩ 0).tokens = 0 := by
    norm_num [SPRateLimiter.refillTokens]
  refine ⟨?_, ?_⟩
  · rw [h.1]
    norm_num
  · rw [h.2, hr]
    exact max_eq_left (by norm_num)

/-! ## Claim C3 -/

/-- States of the spApiClient `RateLimiter` reachable from a freshly
constructed limiter (with nonnegative burst capacity) by any sequence of
`waitForToken` and `_refillTokens` calls (`hasTokens`/`getTokenCount`
only call `_refillTokens`). -/
inductive SPReach : SPRateLimiter → Prop where
  | init (rps burst : ℚ) (t0 : ℤ) (hburst : 0 ≤ burst) :
      SPReach (SPRateLimiter.init rps burst t0)
  | wait (s : SPRateLimiter) (now : ℤ) (h : SPReach s) :
      SPReach (SPRateLimiter.waitForToken s now).1
  | refill (s : SPRateLimiter) (now : ℤ) (h : SPReach s) :
      SPReach (SPRateLimiter.refillTokens s now)

/-- States of the ads cron `RateLimiter` reachable from a freshly
constructed limiter (nonnegative burst and rate) by `waitForToken` calls
with a monotone clock. -/
inductive AdsReach : AdsRateLimiter → Prop where
  | init (rps burst : ℚ) (t0 : ℤ) (hburst : 0 ≤ burst) (hrps : 0 ≤ rps) :
      AdsReach (AdsRateLimiter.init rps burst t0)
  | wait (s : AdsRateLimiter) (now : ℤ) (h : AdsReach s) (hmono : s.lastRefill ≤ now) :
      AdsReach (AdsRateLimiter.waitForToken s now).1

theorem sp_refill_invariant {s : SPRateLimiter} (now : ℤ)
    (h : 0 ≤ s.tokens ∧ s.tokens ≤ s.maxBurst) :
    0 ≤ (SPRateLimiter.refillTokens s now).tokens ∧
      (SPRateLimiter.refillTokens s now).tokens ≤
        (SPRateLimiter.refillTokens s now).maxBurst := by
  have hcap : (0 : ℚ) ≤ s.maxBurst := le_trans h.1 h.2
  rw [SPRateLimiter.refillTokens]
  split_ifs with hadd
  · constructor
    · have : (0 : ℚ) ≤ s.tokens + ⌊((now - s.lastRefill : ℤ) : ℚ) / 1000 *
          s.requestsPerSecond⌋ := by
        have : (0 : ℚ) ≤ (⌊((now - s.lastRefill : ℤ) : ℚ) / 1000 *
            s.requestsPerSecond⌋ : ℚ) := by
          exact_mod_cast le_of_lt hadd
        linarith [h.1]
      exact le_min hcap this
    · exact min_le_left _ _
  · exact h

/-- **C3**: every state of either rate limiter reachable from the initial
state (tokens = capacity, constructed with nonnegative capacity — and,
for the ads variant, nonnegative rate and a monotone clock) satisfies
`0 ≤ tokens ≤ capacity` after each operation. -/
theorem rateLimiter_tokens_within_capacity :
    (∀ s : SPRateLimiter, SPReach s → 0 ≤ s.tokens ∧ s.tokens ≤ s.maxBurst)
    ∧ (∀ s : AdsRateLimiter, AdsReach s →
        0 ≤ s.tokens ∧ s.tokens ≤ s.maxBurstSize ∧ 0 ≤ s.requestsPerSecond) := by
  constructor
  · intro s h
    induction h with
    | init rps burst t0 hburst => exact ⟨hburst, le_refl _⟩
    | wait s now _ ih =>
      have hr := sp_refill_invariant now ih
      have hcap : (0 : ℚ) ≤ (SPRateLimiter.refillTokens s now).maxBurst :=
        le_trans hr.1 hr.2
      rw [SPRateLimiter.waitForToken]
      split_ifs with htok
      · constructor
        · show (0 : ℚ) ≤ (SPRateLimiter.refillTokens s now).tokens - 1
          linarith
        · show (SPRateLimiter.refillTokens s now).tokens - 1 ≤
            (SPRateLimiter.refillTokens s now).maxBurst
          linarith [hr.2]
      · constructor
        · show (0 : ℚ) ≤ max 0 ((SPRateLimiter.refillTokens s now).tokens - 1)
          exact le_max_left _ _
        · show max 0 ((SPRateLimiter.refillTokens s now).tokens - 1) ≤
            (SPRateLimiter.refillTokens s now).maxBurst
          rw [max_le_iff]
          exact ⟨hcap, by linarith [hr.2]⟩
    | refill s now _ ih => exact sp_refill_invariant now ih
  · intro s h
    induction h with
    | init rps burst t0 hburst hrps => exact ⟨hburst, le_refl _, hrps⟩
    | wait s now _ hmono ih =>
      have helapsed : (0 : ℚ) ≤ ((now - s.lastRefill : ℤ) : ℚ) / 1000 := by
        have : (0 : ℚ) ≤ ((now - s.lastRefill : ℤ) : ℚ) := by
          exact_mod_cast Int.sub_nonneg.mpr hmono
        positivity
      have hcap : (0 : ℚ) ≤ s.maxBurstSize := le_trans ih.1 ih.2.1
      have hrefshift : (0 : ℚ) ≤ s.tokens + ((now - s.lastRefill : ℤ) : ℚ) / 1000 *
          s.requestsPerSecond := by
        have := mul_nonneg helapsed ih.2.2
        linarith [ih.1]
      have hmin : min s.maxBurstSize (s.tokens + ((now - s.lastRefill : ℤ) : ℚ) / 1000 *
          s.requestsPerSecond) ≤ s.maxBurstSize := min_le_left _ _
      rw [AdsRateLimiter.waitForToken]
      split_ifs with htok
      · have htok' : (1 : ℚ) ≤ min s.maxBurstSize
            (s.tokens + ((now - s.lastRefill : ℤ) : ℚ) / 1000 * s.requestsPerSecond) :=
          htok
        refine ⟨?_, ?_, ih.2.2⟩
        · show (0 : ℚ) ≤ min s.maxBurstSize
            (s.tokens + ((now - s.lastRefill : ℤ) : ℚ) / 1000 * s.requestsPerSecond) - 1
          linarith
        · show min s.maxBurstSize
            (s.tokens + ((now - s.lastRefill : ℤ) : ℚ) / 1000 * s.requestsPerSecond) - 1 ≤
              s.maxBurstSize
          linarith
      · exact ⟨le_refl _, hcap, ih.2.2⟩

/-- Witness for C3: the invariant at the concrete states reached by one
`waitForToken` call on each freshly built production limiter
(`new RateLimiter(1, 5)` and `new RateLimiter(2, 10)`). -/
theorem rateLimiter_tokens_within_capacity_witness :
    (0 ≤ ((SPRateLimiter.init 1 5 0).waitForToken 17).1.tokens ∧
      ((SPRateLimiter.init 1 5 0).waitForToken 17).1.tokens ≤
        ((SPRateLimiter.init 1 5 0).waitForToken 17).1.maxBurst)
    ∧ (0 ≤ ((AdsRateLimiter.init 2 10 0).waitForToken 17).1.tokens ∧
        ((AdsRateLimiter.init 2 10 0).waitForToken 17).1.tokens ≤
          ((AdsRateLimiter.init 2 10 0).waitForToken 17).1.maxBurstSize) := by
  constructor
  · exact rateLimiter_tokens_within_capacity.1 _
      (SPReach.wait _ 17 (SPReach.init 1 5 0 (by norm_num)))
  · have h := rateLimiter_tokens_within_capacity.2 _
      (AdsReach.wait _ 17 (AdsReach.init 2 10 0 (by norm_num) (by norm_num))
        (by norm_num [AdsRateLimiter.init]))
    exact ⟨h.1, h.2.1⟩

/-! ## Claim C5 -/

/-- **C5**: a request to either ingestion trigger whose `x-cron-secret`
header is missing or differs from the configured secret receives
HTTP 401, and the handler performs no upstream fetch, no table write and
no ingestion-log write. -/
theorem unauthorized_cron_request_rejected (secretHeader envSecret : Option String)
    (hbad : secretHeader = none ∨ secretHeader ≠ envSecret)
    (method : String) (salesFetch : Except String SalesResult)
    (ordersFetch : Except String (List OrderInput)) (now : String) (store : SPStore)
    (campaignType : String) (fetched : List AdsCampaign)
    (defaultUserId : Option String) (astore : AdsStore) :
    ((salesHandler secretHeader envSecret method salesFetch ordersFetch now store).status
        = 401
      ∧ (salesHandler secretHeader envSecret method salesFetch ordersFetch now store).store
        = store
      ∧ (salesHandler secretHeader envSecret method salesFetch ordersFetch now store).logs
        = []
      ∧ (salesHandler secretHeader envSecret method salesFetch ordersFetch now
          store).upstreamCalls = 0)
    ∧ ((adsHandler secretHeader envSecret method campaignType fetched defaultUserId now
          astore).status = 401
      ∧ (adsHandler secretHeader envSecret method campaignType fetched defaultUserId now
          astore).store = astore
      ∧ (adsHandler secretHeader envSecret method campaignType fetched defaultUserId now
          astore).logs = []
      ∧ (adsHandler secretHeader envSecret method campaignType fetched defaultUserId now
          astore).upstreamCalls = 0) := by
  have hfalse : cronAuthorized secretHeader envSecret = false := by
    rcases hbad with h | h
    · simp [cronAuthorized, h, truthy]
    · simp [cronAuthorized, beq_eq_false_iff_ne.mpr h]
  constructor
  · rw [salesHandler]
    simp [hfalse]
  · rw [adsHandler]
    simp [hfalse]

/-- Witness for C5: a concrete request with no `x-cron-secret` header
against a configured secret is rejected by both handlers with no
effects. -/
theorem unauthorized_cron_request_rejected_witness :
    (salesHandler none (some "secret") "POST" (.error "e") (.error "e") "2024-01-02"
        ⟨Table.empty, Table.empty⟩).status = 401
    ∧ (adsHandler none (some "secret") "POST" "all" [] none "2024-01-02"
        ⟨Table.empty⟩).logs = [] := by
  have h := unauthorized_cron_request_rejected none (some "secret") (Or.inl rfl)
    "POST" (.error "e") (.error "e") "2024-01-02" ⟨Table.empty, Table.empty⟩
    "all" [] none ⟨Table.empty⟩
  exact ⟨h.1.1, h.2.2.2.1⟩

/-! ## Claim C6 -/

/-- **C6** counterexample to the claim as frozen: the ads cron's
`getAccessToken` with no credentials configured (and no cached token)
returns the placeholder `"mock_access_token"` instead of failing — the
upstream exchange oracle is never consulted. -/
theorem ads_token_mock_substitution :
    adsGetAccessToken none none none none none 0 (.error "unreachable") =
      { result := .ok "mock_access_token", cache := none, exchanged := false } := by
  rfl

/-- **C6** (amended): the SP-API client's `getLWAAccessToken` fails fast
with the credentials-missing error (no exchange attempted, no mock) when
`clientId` or `clientSecret` is absent; the ads cron's `getAccessToken`,
however, substitutes the placeholder `"mock_access_token"` (without
hitting the exchange endpoint) whenever any of its three credentials is
absent and no valid cached token exists. -/
theorem token_missing_credentials_behavior
    (clientId clientSecret : Option String) (cache : Option CachedToken) (now : ℤ)
    (exchange : Except String TokenExchangeResult)
    (hmiss : ¬ (truthy clientId = true ∧ truthy clientSecret = true))
    (aCid aCs aRt aTok : Option String) (aExp : Option ℚ) (anow : ℤ)
    (aExchange : Except String TokenExchangeResult)
    (haMiss : ¬ (truthy aCid = true ∧ truthy aCs = true ∧ truthy aRt = true))
    (haNoCache : ¬ (truthy aTok = true ∧ aExp.getD 0 ≠ 0 ∧ (anow : ℚ) < aExp.getD 0)) :
    ((getLWAAccessToken clientId clientSecret cache now exchange).result =
        .error "SP-API: Missing LWA credentials (CLIENT_ID, CLIENT_SECRET, or REFRESH_TOKEN)"
      ∧ (getLWAAccessToken clientId clientSecret cache now exchange).exchanged = false)
    ∧ ((adsGetAccessToken aCid aCs aRt aTok aExp anow aExchange).result =
        .ok "mock_access_token"
      ∧ (adsGetAccessToken aCid aCs aRt aTok aExp anow aExchange).exchanged = false) := by
  constructor
  · simp [getLWAAccessToken, hmiss]
  · simp [adsGetAccessToken, haMiss, haNoCache]

/-- Witness for C6: both token managers at concretely missing
credentials. -/
theorem token_missing_credentials_behavior_witness :
    (getLWAAccessToken none (some "sec") none 0 (.error "unreachable")).result =
      .error "SP-API: Missing LWA credentials (CLIENT_ID, CLIENT_SECRET, or REFRESH_TOKEN)"
    ∧ (adsGetAccessToken (some "id") none (some "rt") none none 0
        (.error "unreachable")).result = .ok "mock_access_token" := by
  have h := token_missing_credentials_behavior none (some "sec") none 0 (.error "unreachable")
    (by simp [truthy]) (some "id") none (some "rt") none none 0 (.error "unreachable")
    (by simp [truthy]) (by simp [truthy])
  exact ⟨h.1.1, h.2.1⟩

/-! ## Lemmas: conflict-key upsert batches -/

theorem upsertAll_apply {K V : Type} [DecidableEq K] (t : Table K V)
    (rows : List (K × V)) (k : K) :
    Table.upsertAll t rows k =
      match rows.reverse.find? (fun kv => kv.1 = k) with
      | some kv => some kv.2
      | none => t k := by
  induction rows generalizing t with
  | nil => rfl
  | cons kv rest ih =>
    show Table.upsertAll (Table.upsert t kv.1 kv.2) rest k = _
    rw [ih, List.reverse_cons, List.find?_append]
    cases h : rest.reverse.find? (fun kv => kv.1 = k) with
    | some kv' => rfl
    | none =>
      simp only [Option.none_or]
      by_cases hk : kv.1 = k
      · simp [List.find?_cons, hk, Table.upsert]
      · simp [List.find?_cons, hk, Table.upsert, Ne.symm hk]

/-- Re-applying the same keyed batch is a no-op: the second pass replaces
every row with the value it already has. -/
theorem upsertAll_idempotent {K V : Type} [DecidableEq K] (t : Table K V)
    (rows : List (K × V)) :
    Table.upsertAll (Table.upsertAll t rows) rows = Table.upsertAll t rows := by
  funext k
  rw [upsertAll_apply, upsertAll_apply]
  cases h : rows.reverse.find? (fun kv => kv.1 = k) <;> rfl

theorem upsertSalesData_idempotent (batch : List Metric) (source now : String)
    (t : Table (String × String × String) SalesRow) :
    (upsertSalesData batch source now
        (upsertSalesData batch source now t).1).1 =
      (upsertSalesData batch source now t).1 := by
  rw [upsertSalesData, upsertSalesData]
  by_cases h : batch.isEmpty <;> simp [h, upsertAll_idempotent]

theorem upsertOrdersData_idempotent (batch : List OrderInput) (source now : String)
    (t : Table String OrderRow) :
    (upsertOrdersData batch source now
        (upsertOrdersData batch source now t).1).1 =
      (upsertOrdersData batch source now t).1 := by
  rw [upsertOrdersData, upsertOrdersData]
  by_cases h : batch.isEmpty <;> simp [h, upsertAll_idempotent]

/-! ## Claim C7 -/

/-- **C7**: running the sales ingestion flow twice with identical
parameters, identical upstream responses and the same clock, starting
from an empty store, leaves the upserted tables (sales metrics keyed by
date+marketplace+granularity, orders keyed by order id) in the same final
state as running it once: the repeated run replaces rather than
duplicates rows. -/
theorem sales_ingestion_idempotent (secretHeader envSecret : Option String)
    (method : String) (salesFetch : Except String SalesResult)
    (ordersFetch : Except String (List OrderInput)) (now : String) :
    (salesHandler secretHeader envSecret method salesFetch ordersFetch now
        (salesHandler secretHeader envSecret method salesFetch ordersFetch now
          ⟨Table.empty, Table.empty⟩).store).store =
      (salesHandler secretHeader envSecret method salesFetch ordersFetch now
        ⟨Table.empty, Table.empty⟩).store := by
  rw [salesHandler, salesHandler]
  by_cases hauth : cronAuthorized secretHeader envSecret
  · by_cases hm : method = "POST" ∨ method = "GET"
    · simp only [hauth, hm, not_true, if_false, if_true, not_false_iff]
      cases salesFetch with
      | error e => rfl
      | ok sr =>
        by_cases hempty : sr.metrics.isEmpty
        · simp [hempty]
        · have hs := upsertSalesData_idempotent sr.metrics "sp-api-cron" now Table.empty
          cases ordersFetch with
          | error e => simp [hempty, hs]
          | ok os =>
            by_cases hos : os.isEmpty
            · simp [hempty, hos, hs]
            · have ho := upsertOrdersData_idempotent os "sp-api-cron" now Table.empty
              simp [hempty, hos, hs, ho]
    · simp [hauth, hm]
  · simp [hauth]

/-! ## Claim C9 -/

/-- **C9** counterexample to the claim as frozen: a successful ads
ingestion run's summary object carries the keys `totalImpressions`,
`totalClicks`, `totalCost`, `totalSales`, `averageCTR`, `averageROAS` —
there is no `totalSpend` field; the spend total is published under
`totalCost`. -/
theorem ads_summary_has_totalCost_not_totalSpend :
    ((adsHandler (some "s") (some "s") "POST" "all"
        [⟨"camp1", some "Summer Sale", some "SPONSORED_PRODUCTS", none, none, none,
          some 1000, some 100, some 50, none, none, some 200, none,
          some "2024-01-01", some "2024-12-31", none, none, none, none⟩]
        none "2024-01-02" ⟨Table.empty⟩).summary.getD []).map Prod.fst =
      ["totalImpressions", "totalClicks", "totalCost", "totalSales",
        "averageCTR", "averageROAS"]
    ∧ "totalSpend" ∉ ((adsHandler (some "s") (some "s") "POST" "all"
        [⟨"camp1", some "Summer Sale", some "SPONSORED_PRODUCTS", none, none, none,
          some 1000, some 100, some 50, none, none, some 200, none,
          some "2024-01-01", some "2024-12-31", none, none, none, none⟩]
        none "2024-01-02" ⟨Table.empty⟩).summary.getD []).map Prod.fst
    ∧ (adsHandler (some "s") (some "s") "POST" "all"
        [⟨"camp1", some "Summer Sale", some "SPONSORED_PRODUCTS", none, none, none,
          some 1000, some 100, some 50, none, none, some 200, none,
          some "2024-01-01", some "2024-12-31", none, none, none, none⟩]
        none "2024-01-02" ⟨Table.empty⟩).status = 200 := by
  refine ⟨rfl, ?_, rfl⟩
  intro hmem
  have h2 : ("totalSpend" : String) ∈ (["totalImpressions", "totalClicks", "totalCost",
      "totalSales", "averageCTR", "averageROAS"] : List String) := hmem
  simp at h2

/-- **C9** (amended): on a successful ads ingestion run with a nonempty
campaign batch, the handler responds 200 with a summary whose keys are
`totalImpressions`, `totalClicks`, `totalCost` (the spend total — not
`totalSpend`), `totalSales`, `averageCTR` and `averageROAS`; the four
totals are sums over the type-filtered campaign batch (cost and sales
rounded to two decimals) and CTR and ROAS are derived from those
totals. -/
theorem ads_success_response_summary (secretHeader envSecret : Option String)
    (method campaignType : String) (fetched : List AdsCampaign)
    (defaultUserId : Option String) (now : String) (store : AdsStore)
    (hauth : cronAuthorized secretHeader envSecret = true)
    (hm : method = "POST" ∨ method = "GET") (hne : fetched ≠ []) :
    (adsHandler secretHeader envSecret method campaignType fetched defaultUserId now
        store).status = 200
    ∧ (adsHandler secretHeader envSecret method campaignType fetched defaultUserId now
        store).summary =
      some
        [("totalImpressions", .num (((filterCampaigns campaignType fetched).map
            (fun c => numOr0 c.impressions)).sum)),
         ("totalClicks", .num (((filterCampaigns campaignType fetched).map
            (fun c => numOr0 c.clicks)).sum)),
         ("totalCost", .num (jsToFixed 2 (((filterCampaigns campaignType fetched).map
            (fun c => numOr0 c.cost)).sum))),
         ("totalSales", .num (jsToFixed 2 (((filterCampaigns campaignType fetched).map
            (fun c => numOr0 c.sales_7d)).sum))),
         ("averageCTR",
           if 0 < ((filterCampaigns campaignType fetched).map
               (fun c => numOr0 c.impressions)).sum then
             .pct3 ((((filterCampaigns campaignType fetched).map
                 (fun c => numOr0 c.clicks)).sum /
               ((filterCampaigns campaignType fetched).map
                 (fun c => numOr0 c.impressions)).sum) * 100)
           else .str "0%"),
         ("averageROAS",
           if 0 < ((filterCampaigns campaignType fetched).map
               (fun c => numOr0 c.cost)).sum then
             .fixed2 (((filterCampaigns campaignType fetched).map
                 (fun c => numOr0 c.sales_7d)).sum /
               ((filterCampaigns campaignType fetched).map
                 (fun c => numOr0 c.cost)).sum)
           else .str "0")] := by
  have hempty : fetched.isEmpty = false := by
    cases fetched with
    | nil => exact absurd rfl hne
    | cons a l => rfl
  rw [adsHandler]
  simp [hauth, hm, hempty, buildSummary]

/-- Witness for C9 at a concrete single-campaign run: status 200 and the
computed summary (1000 impressions, 100 clicks, cost 50, sales 200,
CTR 10 %, ROAS 4). -/
theorem ads_success_response_summary_witness :
    (adsHandler (some "s") (some "s") "GET" "all"
        [⟨"camp1", none, some "SPONSORED_PRODUCTS", none, none, none,
          some 1000, some 100, some 50, none, none, some 200, none,
          none, none, none, none, none, none⟩]
        none "2024-01-02" ⟨Table.empty⟩).status = 200
    ∧ (adsHandler (some "s") (some "s") "GET" "all"
        [⟨"camp1", none, some "SPONSORED_PRODUCTS", none, none, none,
          some 1000, some 100, some 50, none, none, some 200, none,
          none, none, none, none, none, none⟩]
        none "2024-01-02" ⟨Table.empty⟩).summary =
      some [("totalImpressions", .num 1000), ("totalClicks", .num 100),
            ("totalCost", .num (jsToFixed 2 50)), ("totalSales", .num (jsToFixed 2 200)),
            ("averageCTR", .pct3 (100 / 1000 * 100)), ("averageROAS", .fixed2 (200 / 50))] := by
  have h := ads_success_response_summary (some "s") (some "s") "GET" "all"
    [⟨"camp1", none, some "SPONSORED_PRODUCTS", none, none, none,
      some 1000, some 100, some 50, none, none, some 200, none,
      none, none, none, none, none, none⟩]
    none "2024-01-02" ⟨Table.empty⟩ (by rfl) (Or.inr rfl) (by simp)
  refine ⟨h.1, ?_⟩
  rw [h.2]
  norm_num [filterCampaigns, numOr0]

/-! ## Claim C10 -/

/-- **C10**: in the sales-gateway transform, `average_unit_price` is
never produced by a division by zero: it is
`parseFloat((sales / units).toFixed(4))` only when `ordered_product_sales`
and `units_ordered` are both nonzero (JS-truthy), and `0` otherwise. -/
theorem average_unit_price_division_guarded (r : Metric) (source now : String) :
    ((r.ordered_product_sales = 0 ∨ r.units_ordered = 0) →
      (toSalesRow source now r).average_unit_price = 0)
    ∧ (r.ordered_product_sales ≠ 0 → r.units_ordered ≠ 0 →
      (toSalesRow source now r).average_unit_price =
        jsToFixed 4 (r.ordered_product_sales / r.units_ordered)) := by
  constructor
  · intro h
    rcases h with h | h <;> simp [toSalesRow, h]
  · intro h1 h2
    simp [toSalesRow, h1, h2]

/-- Witness for C10: the transform at a zero-unit record (no division,
price 0) and at a 3-unit, 30-sales record (price 10). -/
theorem average_unit_price_division_guarded_witness :
    (toSalesRow "sp-api-cron" "2024-01-02"
      { date := "2024-01-01", units_ordered := 0, units_shipped := 0,
        ordered_product_sales := 25, shipped_product_sales := 25,
        total_order_items := 2 }).average_unit_price = 0
    ∧ (toSalesRow "sp-api-cron" "2024-01-02"
        { date := "2024-01-01", units_ordered := 3, units_shipped := 3,
          ordered_product_sales := 30, shipped_product_sales := 30,
          total_order_items := 2 }).average_unit_price = jsToFixed 4 (30 / 3) := by
  constructor
  · exact (average_unit_price_division_guarded
      { date := "2024-01-01", units_ordered := 0, units_shipped := 0,
        ordered_product_sales := 25, shipped_product_sales := 25,
        total_order_items := 2 } "sp-api-cron" "2024-01-02").1 (Or.inr rfl)
  · exact (average_unit_price_division_guarded
      { date := "2024-01-01", units_ordered := 3, units_shipped := 3,
        ordered_product_sales := 30, shipped_product_sales := 30,
        total_order_items := 2 } "sp-api-cron" "2024-01-02").2
      (by norm_num) (by norm_num)

end AmazonDashboard
